import Mathlib

/- Verification of the yelp-crawler extraction pipeline (src/crawler.py).

The embedding models HTML as a tree of nodes, translates the selector
queries the crawler performs into bespoke tree functions, and renders the
pagination loop of get_objects_list as a fuel-indexed recursion that
records the offsets of the listing pages it fetches.  Python exceptions
(requests network errors, IndexError from raw list indexing) are rendered
as Except values that propagate exactly where the Python code has no
handler. -/

/-- An HTML node: either a text fragment or an element with a tag,
attributes and children. -/
inductive Node where
  | text (s : String)
  | elem (tag : String) (attrs : List (String × String)) (children : List Node)

/-- The two exceptions the crawler can actually raise: an uncaught
requests network error, and an IndexError from indexing a selector
result list. -/
inductive CrawlErr where
  | networkError
  | indexError
deriving DecidableEq, Repr

/-- Python str.strip() whitespace (the ASCII part; the crawler only meets
ASCII whitespace). -/
def pyWs (c : Char) : Bool :=
  c == ' ' || c == '\t' || c == '\n' || c == '\r' || c == '\x0b' || c == '\x0c'

/-- Python str.strip(): drop leading and trailing whitespace. -/
def pyStrip (s : String) : String :=
  String.mk (((s.toList.dropWhile pyWs).reverse.dropWhile pyWs).reverse)

/-- Leftmost, non-overlapping removal of every occurrence of pat, driven by
a fuel that the wrapper sets to the text length (Python str.replace(pat, "");
an empty pattern leaves the text unchanged, as replace with "" does). -/
def removeOccFuel (pat : List Char) : Nat → List Char → List Char
  | 0, text => text
  | _ + 1, [] => []
  | fuel + 1, c :: rest =>
    if pat ≠ [] ∧ pat.isPrefixOf (c :: rest) then
      removeOccFuel pat fuel ((c :: rest).drop pat.length)
    else
      c :: removeOccFuel pat fuel rest

/-- Python text.replace(symbol, ""). -/
def pyReplace (text pat : String) : String :=
  String.mk (removeOccFuel pat.toList text.toList.length text.toList)

/-- The for-loop of sanitize_element_text: remove each symbol in turn. -/
def applySymbols (text : String) (symbols : List String) : String :=
  symbols.foldl (fun acc sym => pyReplace acc sym) text

mutual

/-- Concatenated text of every descendant text node, in document order
(bs4 element.text). -/
def Node.allText : Node → String
  | .text s => s
  | .elem _ _ cs => allTextList cs

def allTextList : List Node → String
  | [] => ""
  | c :: cs => c.allText ++ allTextList cs

end

/-- The tag of an element node. -/
def tagOf : Node → Option String
  | .text _ => none
  | .elem t _ _ => some t

/-- The children of a node. -/
def childrenOf : Node → List Node
  | .text _ => []
  | .elem _ _ cs => cs

/-- bs4 tag.get(key): the first attribute with the given name. -/
def getAttr (n : Node) (key : String) : Option String :=
  match n with
  | .text _ => none
  | .elem _ attrs _ => (attrs.find? (fun p => p.1 == key)).map (fun p => p.2)

/-- Python truthiness of a bs4 element or None: None is falsy, a
NavigableString is falsy when empty, and a Tag is falsy when it has no
children (Tag.__len__ counts children). -/
def pyFalsy : Option Node → Bool
  | none => true
  | some (.text s) => s == ""
  | some (.elem _ _ cs) => cs.isEmpty

/-- sanitize_element_text from the source: None (or a falsy element) maps
to None, otherwise the element text is stripped and each symbol in
additional_symbols removed. -/
def sanitize_element_text (element : Option Node) (additional_symbols : List String) :
    Option String :=
  if pyFalsy element then none
  else
    match element with
    | some e => some (applySymbols (pyStrip e.allText) additional_symbols)
    | none => none

/-- sanitize_element_text applied to a plain optional text fragment, the
shape in which the sanitizer is composed with itself. -/
def sanitizeText (x : Option String) (symbols : List String) : Option String :=
  sanitize_element_text (x.map Node.text) symbols

/-- The strip-then-remove pass on a present, nonempty text. -/
def stripRemove (t : String) (symbols : List String) : String :=
  applySymbols (pyStrip t) symbols

/-- bs4 tag.string: the single text descendant reached through
single-child wrappers, if any. -/
def nodeString : Node → Option String
  | .text s => some s
  | .elem _ _ [c] => nodeString c
  | .elem _ _ _ => none

mutual

/-- Every element node properly below the starting point, paired with its
chain of ancestors (nearest first), in document (preorder) order. -/
def elemsAnc (anc : List Node) : Node → List (Node × List Node)
  | .text _ => []
  | .elem t attrs cs => (.elem t attrs cs, anc) :: elemsAncList (.elem t attrs cs :: anc) cs

def elemsAncList (anc : List Node) : List Node → List (Node × List Node)
  | [] => []
  | c :: cs => elemsAnc anc c ++ elemsAncList anc cs

end

/-- The proper element descendants of a root, each with its ancestor chain
(the root closes every chain). -/
def properElems (root : Node) : List (Node × List Node) :=
  elemsAncList [root] (childrenOf root)

/-- Is pat a substring of s (CSS [attr*=value])? -/
def strContainsSub (s pat : String) : Bool :=
  s.toList.tails.any (fun t => pat.toList.isPrefixOf t)

/-- CSS .cls: the class attribute, split on whitespace, contains cls. -/
def classWord (n : Node) (cls : String) : Bool :=
  match getAttr n "class" with
  | some v => (v.split (fun c => pyWs c)).contains cls
  | none => false

/-- CSS [class*=sub]: the raw class attribute contains sub as substring. -/
def classSub (n : Node) (sub : String) : Bool :=
  match getAttr n "class" with
  | some v => strContainsSub v sub
  | none => false

example : pyStrip "  a b  " = "a b" := by decide
example : pyReplace "aabb" "ab" = "ab" := by decide
example : sanitizeText (some " (42) ") ["(", ")"] = some "42" := by decide
example : sanitizeText (some "") ["("] = none := by decide

/-- The terminal sentinel of get_objects_list. -/
def error_text : String := "We're sorry, the page of results you requested is unavailable."

/-- soup.find_all("h3", string=error_text): every h3 descendant whose
bs4 string equals the sentinel, with its ancestor chain. -/
def errorTags (soup : Node) : List (Node × List Node) :=
  (properElems soup).filter
    (fun p => tagOf p.1 == some "h3" && nodeString p.1 == some error_text)

/-- The truthiness test "if error_tag:" on the find_all result. -/
def isTerminal (soup : Node) : Bool :=
  !(errorTags soup).isEmpty

/-- div[data-testid="serp-ia-card"]:not(.ABP). -/
def isCardElem (n : Node) : Bool :=
  tagOf n == some "div" && getAttr n "data-testid" == some "serp-ia-card"
    && !(classWord n "ABP")

/-- soup.select of the listing cards, in document order. -/
def selectCards (soup : Node) : List Node :=
  ((properElems soup).filter (fun p => isCardElem p.1)).map (fun p => p.1)

mutual

/-- card.select_one of the name link: every a element that has a proper
ancestor (within the card subtree, the card included) whose class
attribute contains "businessName" as a substring; document order. -/
def anchorsBN (hasAnc : Bool) : Node → List Node
  | .text _ => []
  | .elem t attrs cs =>
    (if hasAnc && t == "a" then [Node.elem t attrs cs] else [])
      ++ anchorsBNList (hasAnc || classSub (.elem t attrs cs) "businessName") cs

def anchorsBNList (hasAnc : Bool) : List Node → List Node
  | [] => []
  | c :: cs => anchorsBN hasAnc c ++ anchorsBNList hasAnc cs

end

/-- card.select_one('[class*="businessName"] a'). -/
def selectNameElement (card : Node) : Option Node :=
  (anchorsBNList (classSub card "businessName") (childrenOf card)).head?

/-- The element children of a node (text children do not count for CSS
sibling and child positions). -/
def elemChildren (n : Node) : List Node :=
  (childrenOf n).filter (fun c => match c with | .text _ => false | .elem _ _ _ => true)

/-- Scan a child list for div.css-volmcs + div.css-1jq1ouh pairs: each
div.css-1jq1ouh whose nearest preceding element sibling is a
div.css-volmcs. -/
def adjacentYs : Option Node → List Node → List Node
  | _, [] => []
  | prev, c :: cs =>
    match c with
    | .text _ => adjacentYs prev cs
    | .elem t attrs cc =>
      (if (match prev with
           | some x =>
             tagOf x == some "div" && classWord x "css-volmcs"
               && t == "div" && classWord (.elem t attrs cc) "css-1jq1ouh"
           | none => false) then [Node.elem t attrs cc] else [])
        ++ adjacentYs (some (.elem t attrs cc)) cs

/-- The first element child when it is a span (span:first-child). -/
def firstSpanChild (y : Node) : Option Node :=
  match (elemChildren y).head? with
  | some (.elem "span" attrs cs) => some (.elem "span" attrs cs)
  | _ => none

/-- The last element child when it is a span (span:last-child). -/
def lastSpanChild (y : Node) : Option Node :=
  match (elemChildren y).getLast? with
  | some (.elem "span" attrs cs) => some (.elem "span" attrs cs)
  | _ => none

/-- All div.css-1jq1ouh nodes adjacent to a div.css-volmcs sibling, over
the card subtree (the card included as a scanning parent). -/
def ratingRowYs (card : Node) : List Node :=
  adjacentYs none (childrenOf card)
    ++ ((properElems card).map (fun p => adjacentYs none (childrenOf p.1))).flatten

/-- card.select_one('div.css-volmcs + div.css-1jq1ouh > span:first-child'). -/
def selectRatingElement (card : Node) : Option Node :=
  ((ratingRowYs card).filterMap firstSpanChild).head?

/-- card.select_one('div.css-volmcs + div.css-1jq1ouh > span:last-child'). -/
def selectCountElement (card : Node) : Option Node :=
  ((ratingRowYs card).filterMap lastSpanChild).head?

/-- soup.find_all("p", string="Business website"), each with its ancestor
chain. -/
def labelPs (soup : Node) : List (Node × List Node) :=
  (properElems soup).filter
    (fun p => tagOf p.1 == some "p" && nodeString p.1 == some "Business website")

/-- parent.find_all(tag): the element descendants with the given tag, in
document order. -/
def findAllTag (root : Node) (tag : String) : List Node :=
  ((properElems root).filter (fun p => tagOf p.1 == some tag)).map (fun p => p.1)

/-- The parent of a found node: the head of its ancestor chain (the chain
is never empty for a proper descendant; the root is the formal default). -/
def labelParent (p : Node × List Node) (soup : Node) : Node :=
  match p.2 with
  | [] => soup
  | a :: _ => a

/-- The website block of get_object_reviews: if a "Business website" label
is present, read its parent's second p descendant — a raw [1] index that
raises IndexError when that parent holds fewer than two p nodes. -/
def websiteStep (soup : Node) : Except CrawlErr (Option String) :=
  match labelPs soup with
  | [] => Except.ok none
  | p :: _ =>
    match (findAllTag (labelParent p soup) "p")[1]? with
    | some w => Except.ok (sanitize_element_text (some w) [])
    | none => Except.error CrawlErr.indexError

/-- soup.select_one('div#reviews ul[class="list__09f24__ynIEd"]'): the
first ul whose class attribute is exactly the list marker and that has a
div ancestor with id "reviews". -/
def selectReviewsBlock (soup : Node) : Option Node :=
  let hits := (properElems soup).filter
    (fun (p : Node × List Node) => tagOf p.1 == some "ul"
      && getAttr p.1 "class" == some "list__09f24__ynIEd"
      && p.2.any (fun a => tagOf a == some "div" && getAttr a "id" == some "reviews"))
  (hits.map (fun p => p.1)).head?

/-- reviews_list_block.find_all('li'). -/
def findAllLi (block : Node) : List Node :=
  findAllTag block "li"

/-- review.select_one('div.user-passport-info > span > a'). -/
def selectReviewerName (review : Node) : Option Node :=
  let hits := (properElems review).filter
    (fun (p : Node × List Node) => tagOf p.1 == some "a"
      && (match p.2 with
          | s :: d :: _ =>
            tagOf s == some "span" && tagOf d == some "div"
              && classWord d "user-passport-info"
          | _ => false))
  (hits.map (fun p => p.1)).head?

/-- review.select_one('div.user-passport-info > div > div > span'). -/
def selectReviewerLoc (review : Node) : Option Node :=
  let hits := (properElems review).filter
    (fun (p : Node × List Node) => tagOf p.1 == some "span"
      && (match p.2 with
          | d1 :: d2 :: d3 :: _ =>
            tagOf d1 == some "div" && tagOf d2 == some "div"
              && tagOf d3 == some "div" && classWord d3 "user-passport-info"
          | _ => false))
  (hits.map (fun p => p.1)).head?

/-- soup.select('li > div > div'): page-level, document order. -/
def pageLiDivDiv (soup : Node) : List Node :=
  let hits := (properElems soup).filter
    (fun (p : Node × List Node) => tagOf p.1 == some "div"
      && (match p.2 with
          | d :: l :: _ => tagOf d == some "div" && tagOf l == some "li"
          | _ => false))
  hits.map (fun p => p.1)

/-- soup.select('li > div > div')[1]: a raw index that raises IndexError
when the page has fewer than two matches. -/
def dateElementPage (soup : Node) : Except CrawlErr Node :=
  match (pageLiDivDiv soup)[1]? with
  | some d => Except.ok d
  | none => Except.error CrawlErr.indexError

/-- date_element.select_one('div > div[class*="arrange-unit-fill"] > span'). -/
def selectDateSpan (date_element : Node) : Option Node :=
  let hits := (properElems date_element).filter
    (fun (p : Node × List Node) => tagOf p.1 == some "span"
      && (match p.2 with
          | d1 :: d2 :: _ =>
            tagOf d1 == some "div" && classSub d1 "arrange-unit-fill"
              && tagOf d2 == some "div"
          | _ => false))
  (hits.map (fun p => p.1)).head?

/-- One extracted review record. -/
structure ReviewData where
  reviewer_name : Option String
  reviewer_location : Option String
  review_date : Option String
deriving DecidableEq, Repr

/-- The page-level date span, as an Option (used to describe the items a
successful run extracts). -/
def pageDateSpan (soup : Node) : Option Node :=
  match (pageLiDivDiv soup)[1]? with
  | some d => selectDateSpan d
  | none => none

/-- The record the loop body builds for one li item. -/
def mkReviewItem (soup li : Node) : ReviewData :=
  { reviewer_name := sanitize_element_text (selectReviewerName li) []
    reviewer_location := sanitize_element_text (selectReviewerLoc li) []
    review_date := sanitize_element_text (pageDateSpan soup) [] }

/-- The review for-loop of get_object_reviews: stop once
number_of_reviews items are collected; each executed body performs the
page-level date lookup, which may raise. -/
def reviewLoop (soup : Node) (number_of_reviews : Nat) :
    List Node → List ReviewData → Except CrawlErr (List ReviewData)
  | [], acc => Except.ok acc
  | li :: rest, acc =>
    if number_of_reviews ≤ acc.length then Except.ok acc
    else
      match dateElementPage soup with
      | Except.error e => Except.error e
      | Except.ok date_element =>
        reviewLoop soup number_of_reviews rest
          (acc ++ [{ reviewer_name := sanitize_element_text (selectReviewerName li) []
                     reviewer_location := sanitize_element_text (selectReviewerLoc li) []
                     review_date :=
                       sanitize_element_text (selectDateSpan date_element) [] }])

/-- The reviews half of get_object_reviews: locate the reviews block
(truthiness-checked), then run the bounded loop over its li items. -/
def reviewsPart (soup : Node) (number_of_reviews : Nat) (website : Option String) :
    Except CrawlErr (List ReviewData × Option String) :=
  match selectReviewsBlock soup with
  | none => Except.ok ([], website)
  | some block =>
    if pyFalsy (some block) then Except.ok ([], website)
    else (reviewLoop soup number_of_reviews (findAllLi block) []).map
      (fun items => (items, website))

/-- get_object_reviews after the fetch: website block, then the bounded
review extraction. -/
def extract_object_reviews (soup : Node) (number_of_reviews : Nat) :
    Except CrawlErr (List ReviewData × Option String) :=
  (websiteStep soup).bind (fun website => reviewsPart soup number_of_reviews website)

/-- The outcome of requests.get: a response (any status; the crawler never
reads the status) or a raised network error. -/
inductive FetchOutcome where
  | resp (status : Nat) (content : Node)
  | netError

/-- get_object_reviews: requests.get has no handler, so a network error
propagates; otherwise the response content is parsed and mined. -/
def get_object_reviews (outcome : FetchOutcome) (number_of_reviews : Nat) :
    Except CrawlErr (List ReviewData × Option String) :=
  match outcome with
  | .netError => Except.error CrawlErr.networkError
  | .resp _ content => extract_object_reviews content number_of_reviews



/-- One business record as get_object_data builds it.  website mirrors the
Python dict: none means the key was never set (no detail fetch), some w
means the detail fetch stored w (which can itself be absent). -/
structure ObjectData where
  name : Option String
  rating : Option String
  reviews_count : Option String
  yelp_url : Option String
  reviews : List ReviewData
  website : Option (Option String)
deriving DecidableEq, Repr

/-- name_element.get('href') as the f-string renders it: a missing href
becomes the text "None". -/
def hrefOf : Option Node → String
  | some e =>
    match getAttr e "href" with
    | some h => h
    | none => "None"
  | none => "None"

/-- Python truthiness of the optional yelp_url string. -/
def pyTruthyStr : Option String → Bool
  | none => false
  | some s => s != ""

/-- The summary part of get_object_data: the record before any detail
enrichment.  The yelp_url guard is the Python conditional expression
"f-string if name_element else None", a truthiness test on the element. -/
def mkSummary (card : Node) : ObjectData :=
  let name_element := selectNameElement card
  { name := sanitize_element_text name_element []
    rating := sanitize_element_text (selectRatingElement card) []
    reviews_count := sanitize_element_text (selectCountElement card) ["(", ")"]
    yelp_url :=
      if pyFalsy name_element then none
      else some ("https://www.yelp.com" ++ hrefOf name_element)
    reviews := []
    website := none }

/-- The collaborators and configuration of one crawl run: the listing
fetcher (offset to parsed page), the detail fetcher (url to outcome), and
the two instance parameters of YelpCrawler. -/
structure Env where
  pages : Nat → Node
  details : String → FetchOutcome
  number_of_reviews : Nat
  max_pages : Option Nat

/-- get_object_data: build the summary record, enrich it through
get_object_reviews when the yelp_url is truthy (a detail network error
propagates), and emit the raw card to the debug file when the name
element is falsy.  The second component is that diagnostic write. -/
def get_object_data (env : Env) (card : Node) :
    Except CrawlErr (ObjectData × Option Node) :=
  if pyTruthyStr (mkSummary card).yelp_url then
    (get_object_reviews (env.details ((mkSummary card).yelp_url.getD ""))
        env.number_of_reviews).map
      (fun rs =>
        ({ mkSummary card with reviews := rs.1, website := some rs.2 },
          if pyFalsy (selectNameElement card) then some card else none))
  else
    Except.ok (mkSummary card,
      if pyFalsy (selectNameElement card) then some card else none)

/-- The card for-loop of get_objects_list: process the cards in order,
appending each record to the result and each diagnostic dump to the side
channel; an exception from any card aborts the whole loop. -/
def processCards (env : Env) :
    List Node → List ObjectData → List Node →
      Except CrawlErr (List ObjectData × List Node)
  | [], objs, diags => Except.ok (objs, diags)
  | card :: cards, objs, diags =>
    match get_object_data env card with
    | Except.error e => Except.error e
    | Except.ok (od, d) => processCards env cards (objs ++ [od]) (diags ++ d.toList)

/-- How a run of the pagination loop ended. -/
inductive ExitKind where
  | pageLimit
  | sentinel
  | errored
  | fuelOut
deriving DecidableEq, Repr

/-- The observable outcome of get_objects_list: the returned records (or
the propagated exception), the offsets of every listing page fetched, the
diagnostic dumps, and how the loop ended. -/
structure RunOut where
  result : Except CrawlErr (List ObjectData)
  fetchedOffsets : List Nat
  diagnostics : List Node
  exit : ExitKind

/-- "if page > max_pages" after the increment (max_pages is None or a
bound). -/
def pageLimitHit (max_pages : Option Nat) (page : Nat) : Bool :=
  match max_pages with
  | some k => decide (k < page)
  | none => false

/-- The while-loop of get_objects_list, indexed by fuel (the Python loop
is unbounded when max_pages is None and no sentinel appears; fuelOut
marks the runs the fuel cut short).  Each iteration computes the offset,
increments the page counter, checks the bound before fetching, fetches
and parses the listing page, stops on the sentinel, and otherwise
processes the cards. -/
def get_objects_list (env : Env) :
    Nat → Nat → List ObjectData → List Nat → List Node → RunOut
  | 0, _, objs, fetched, diags =>
    { result := Except.ok objs, fetchedOffsets := fetched, diagnostics := diags
      exit := ExitKind.fuelOut }
  | fuel + 1, page, objs, fetched, diags =>
    if pageLimitHit env.max_pages (page + 1) then
      { result := Except.ok objs, fetchedOffsets := fetched, diagnostics := diags
        exit := ExitKind.pageLimit }
    else if isTerminal (env.pages (page * 10)) then
      { result := Except.ok objs, fetchedOffsets := fetched ++ [page * 10]
        diagnostics := diags, exit := ExitKind.sentinel }
    else
      match processCards env (selectCards (env.pages (page * 10))) objs diags with
      | Except.error e =>
        { result := Except.error e, fetchedOffsets := fetched ++ [page * 10]
          diagnostics := diags, exit := ExitKind.errored }
      | Except.ok (objs2, diags2) =>
        get_objects_list env fuel (page + 1) objs2 (fetched ++ [page * 10]) diags2

/-- A listing page with no cards and no sentinel. -/
def emptyDoc : Node := Node.elem "[document]" [] []

/-- An environment with empty listing pages, failing detail fetches and
the crawler defaults (number_of_reviews = 5, max_pages = 5). -/
def envEmpty : Env :=
  { pages := fun _ => emptyDoc, details := fun _ => FetchOutcome.netError
    number_of_reviews := 5, max_pages := some 5 }

/-- A page carrying the exact sentinel heading. -/
def sentinelPage : Node :=
  Node.elem "[document]" [] [Node.elem "h3" [] [Node.text error_text]]

/-- A page whose heading text contains the sentinel strictly (a
near-miss for exact equality). -/
def nearMissPage : Node :=
  Node.elem "[document]" [] [Node.elem "h3" [] [Node.text (error_text ++ "!")]]

example : isTerminal sentinelPage = true := rfl
example : isTerminal nearMissPage = false := rfl
example : (get_objects_list envEmpty 10 0 [] [] []).fetchedOffsets = [0, 10, 20, 30, 40] := rfl
example : (get_objects_list envEmpty 10 0 [] [] []).exit = ExitKind.pageLimit := rfl

/-- An environment whose first page is terminal. -/
def envSentinel : Env :=
  { pages := fun off => if off == 0 then sentinelPage else emptyDoc
    details := fun _ => FetchOutcome.netError
    number_of_reviews := 5, max_pages := none }

example : (get_objects_list envSentinel 7 0 [] [] []).fetchedOffsets = [0] := rfl
example : (get_objects_list envSentinel 7 0 [] [] []).exit = ExitKind.sentinel := rfl

/-- A detail page whose "Business website" label is present but whose
parent holds no second p node: the [1] index raises. -/
def sparseDetailPage : Node :=
  Node.elem "[document]" []
    [Node.elem "div" [] [Node.elem "p" [] [Node.text "Business website"]]]

example : extract_object_reviews sparseDetailPage 5 = Except.error CrawlErr.indexError := rfl

/-- A well-formed listing card: a businessName wrapper holding the link. -/
def listingCard : Node :=
  Node.elem "div" [("data-testid", "serp-ia-card")]
    [Node.elem "div" [("class", "businessName__09f24")]
      [Node.elem "a" [("href", "/biz/some-place")] [Node.text "Some Place"]]]

/-- A listing page with that one card. -/
def cardPage : Node := Node.elem "[document]" [] [listingCard]

/-- An environment whose detail fetches raise a network error while the
listing page carries a linked card. -/
def envNetFail : Env :=
  { pages := fun _ => cardPage, details := fun _ => FetchOutcome.netError
    number_of_reviews := 5, max_pages := some 5 }

example : selectNameElement listingCard
    = some (Node.elem "a" [("href", "/biz/some-place")] [Node.text "Some Place"]) := rfl
example : (mkSummary listingCard).yelp_url = some "https://www.yelp.com/biz/some-place" := rfl
example : (get_objects_list envNetFail 5 0 [] [] []).result
    = Except.error CrawlErr.networkError := rfl
example : (get_objects_list envNetFail 5 0 [] [] []).exit = ExitKind.errored := rfl

/-- One review list item: an empty passport plus the div > div pair that
feeds the page-level date selector. -/
def reviewLi : Node :=
  Node.elem "li" [] [Node.elem "div" [] [Node.elem "div" [] []]]

/-- The reviews list with eight items. -/
def reviewsUl : Node :=
  Node.elem "ul" [("class", "list__09f24__ynIEd")]
    [reviewLi, reviewLi, reviewLi, reviewLi, reviewLi, reviewLi, reviewLi, reviewLi]

/-- A detail page whose reviews list holds eight items. -/
def detailPage8 : Node :=
  Node.elem "[document]" [] [Node.elem "div" [("id", "reviews")] [reviewsUl]]

/-- The record each of those items extracts to (no passport, no date). -/
def emptyReview : ReviewData :=
  { reviewer_name := none, reviewer_location := none, review_date := none }

example : extract_object_reviews detailPage8 3
    = Except.ok ([emptyReview, emptyReview, emptyReview], none) := rfl
example : (pageLiDivDiv detailPage8).length = 8 := rfl

/-- C10: sanitize_element_text yields absent exactly on falsy input
(absent element, empty text, childless element); a present whitespace-only
text is stripped to the empty string, while a present empty text maps to
absent. -/
theorem claim_C10 :
    (∀ e symbols, sanitize_element_text e symbols = none ↔ pyFalsy e = true) ∧
    sanitize_element_text (some (Node.text "")) [] = none ∧
    sanitize_element_text (some (Node.text "   ")) [] = some "" := by
  refine ⟨?_, rfl, by decide⟩
  intro e symbols
  cases e with
  | none => simp [sanitize_element_text, pyFalsy]
  | some el =>
    cases hf : pyFalsy (some el) with
    | true => simp [sanitize_element_text, hf]
    | false => simp [sanitize_element_text, hf]

/-- C4 counterexample: sanitize is not idempotent; removing the symbol
from "a" leaves the empty string, which a second application maps to
absent. -/
theorem claim_C4_cex :
    sanitizeText (sanitizeText (some "a") ["a"]) ["a"] ≠ sanitizeText (some "a") ["a"] := by
  decide

/-- C4 amended: sanitize is idempotent at an input exactly when its result
is absent, or is a nonempty text that the strip-then-remove pass fixes; in
general a second application can strip newly exposed whitespace, remove
newly created symbol occurrences, or map an emptied text to absent. -/
theorem claim_C4_amended : ∀ x symbols,
    sanitizeText (sanitizeText x symbols) symbols = sanitizeText x symbols ↔
      (sanitizeText x symbols = none ∨
        ∃ t, sanitizeText x symbols = some t ∧ t ≠ "" ∧ stripRemove t symbols = t) := by
  intro x symbols
  rcases hx : sanitizeText x symbols with _ | t
  · simp [sanitizeText, sanitize_element_text, pyFalsy]
  · by_cases ht : t = ""
    · subst ht
      simp [sanitizeText, sanitize_element_text, pyFalsy]
    · have hts : sanitizeText (some t) symbols
          = some (stripRemove t symbols) := by
        simp [sanitizeText, sanitize_element_text, pyFalsy, ht, Node.allText, stripRemove]
      rw [hts]
      simp [ht, eq_comm]

/-- Is the website [1]-index in range: no label, or the label's parent
holds at least two p descendants. -/
def websiteSafe (soup : Node) : Bool :=
  match labelPs soup with
  | [] => true
  | p :: _ => decide (2 ≤ (findAllTag (labelParent p soup) "p").length)

/-- Is the date [1]-index unreachable or in range: no reviews block, a
falsy or empty one, a zero cap, or at least two li > div > div matches on
the page. -/
def reviewsSafe (soup : Node) (number_of_reviews : Nat) : Bool :=
  match selectReviewsBlock soup with
  | none => true
  | some b =>
    pyFalsy (some b) || (findAllLi b).isEmpty || decide (number_of_reviews = 0)
      || decide (2 ≤ (pageLiDivDiv soup).length)

theorem getElem1_isSome (l : List Node) : l[1]?.isSome = decide (2 ≤ l.length) := by
  cases h : l[1]? with
  | some d =>
    have := (List.getElem?_eq_some_iff.mp h).1
    simp only [Option.isSome_some]
    symm
    simpa using by omega
  | none =>
    have := List.getElem?_eq_none_iff.mp h
    simp only [Option.isSome_none]
    symm
    simpa using by omega

theorem dateElementPage_isOk (soup : Node) :
    (dateElementPage soup).isOk = decide (2 ≤ (pageLiDivDiv soup).length) := by
  rw [← getElem1_isSome]
  unfold dateElementPage
  cases h : (pageLiDivDiv soup)[1]? with
  | some d => simp [Except.isOk, Except.toBool]
  | none => simp [Except.isOk, Except.toBool]

theorem reviewLoop_isOk (soup : Node) (n : Nat) : ∀ lis acc,
    (reviewLoop soup n lis acc).isOk
      = (lis.isEmpty || decide (n ≤ acc.length) || (dateElementPage soup).isOk) := by
  intro lis
  induction lis with
  | nil => intro acc; simp [reviewLoop, Except.isOk, Except.toBool]
  | cons li rest ih =>
    intro acc
    by_cases hn : n ≤ acc.length
    · simp [reviewLoop, hn, Except.isOk, Except.toBool]
    · cases hd : dateElementPage soup with
      | error e => simp [reviewLoop, hn, hd, Except.isOk, Except.toBool]
      | ok d =>
        have h2 := ih (acc ++
          [{ reviewer_name := sanitize_element_text (selectReviewerName li) []
             reviewer_location := sanitize_element_text (selectReviewerLoc li) []
             review_date := sanitize_element_text (selectDateSpan d) [] }])
        rw [hd] at h2
        simp [reviewLoop, hn, hd, Except.isOk, Except.toBool] at h2 ⊢
        exact h2

theorem exceptMapIsOk {e a b : Type} (r : Except e a) (f : a → b) :
    (r.map f).isOk = r.isOk := by
  cases r <;> rfl

theorem reviewsPart_isOk (soup : Node) (n : Nat) (website : Option String) :
    (reviewsPart soup n website).isOk = reviewsSafe soup n := by
  unfold reviewsPart reviewsSafe
  cases hb : selectReviewsBlock soup with
  | none => simp [Except.isOk, Except.toBool]
  | some block =>
    cases hf : pyFalsy (some block) with
    | true => simp [hf, Except.isOk, Except.toBool]
    | false =>
      simp only [hf, Bool.false_eq_true, if_false]
      rw [exceptMapIsOk, reviewLoop_isOk, dateElementPage_isOk]
      simp [Nat.le_zero]

/-- C2 counterexample: a detail page whose "Business website" label is
present while its parent holds a single p makes the [1] index raise
IndexError, so detail extraction does fail on sparse markup. -/
theorem claim_C2_cex :
    extract_object_reviews sparseDetailPage 5 = Except.error CrawlErr.indexError := rfl

/-- C2 amended: the select_one and find_all locators themselves propagate
absence, but detail extraction succeeds exactly when both raw [1] indexes
are in range or unreachable: the website label is absent or its parent
holds at least two p nodes, and the reviews list is absent, falsy, empty
or cap-zero, or the page holds at least two li > div > div nodes;
otherwise it raises IndexError. -/
theorem claim_C2_amended : ∀ soup n,
    (extract_object_reviews soup n).isOk = (websiteSafe soup && reviewsSafe soup n) := by
  intro soup n
  unfold extract_object_reviews websiteStep websiteSafe
  cases hl : labelPs soup with
  | nil => simpa [Except.bind] using reviewsPart_isOk soup n none
  | cons p rest =>
    cases hw : (findAllTag (labelParent p soup) "p")[1]? with
    | some w =>
      have h2 : 2 ≤ (findAllTag (labelParent p soup) "p").length := by
        have := (List.getElem?_eq_some_iff.mp hw).1
        omega
      simpa [Except.bind, hw, h2] using
        reviewsPart_isOk soup n (sanitize_element_text (some w) [])
    | none =>
      have h2 : (findAllTag (labelParent p soup) "p").length ≤ 1 :=
        List.getElem?_eq_none_iff.mp hw
      have h3 : ¬ 2 ≤ (findAllTag (labelParent p soup) "p").length := by omega
      simp [Except.bind, hw, h3, Except.isOk, Except.toBool]

/-- C3 counterexample: a run whose detail fetch raises a network error
aborts with that error instead of continuing to completion — the claim
that transport failures are recovered locally fails for network errors. -/
theorem claim_C3_cex :
    (get_objects_list envNetFail 5 0 [] [] []).result = Except.error CrawlErr.networkError ∧
    (get_objects_list envNetFail 5 0 [] [] []).exit = ExitKind.errored := ⟨rfl, rfl⟩

/-- C3 amended: a non-success response is processed like any content —
when it carries none of the expected markup the detail fields degrade to
empty and absent and the call returns normally — but a network error
propagates as an uncaught exception. -/
theorem claim_C3_amended : ∀ status content n,
    labelPs content = [] →
    pyFalsy (selectReviewsBlock content) = true →
    get_object_reviews (FetchOutcome.resp status content) n = Except.ok ([], none) ∧
    get_object_reviews FetchOutcome.netError n = Except.error CrawlErr.networkError := by
  intro status content n h1 h2
  refine ⟨?_, rfl⟩
  show extract_object_reviews content n = Except.ok ([], none)
  unfold extract_object_reviews websiteStep
  rw [h1]
  show (Except.ok none).bind (fun website => reviewsPart content n website)
    = Except.ok ([], none)
  unfold reviewsPart
  cases hb : selectReviewsBlock content with
  | none => simp [hb, Except.bind]
  | some block =>
    rw [hb] at h2
    simp [hb, h2, Except.bind]

theorem claim_C3_witness :
    get_object_reviews (FetchOutcome.resp 404 emptyDoc) 5 = Except.ok ([], none) ∧
    get_object_reviews FetchOutcome.netError 5 = Except.error CrawlErr.networkError :=
  claim_C3_amended 404 emptyDoc 5 rfl rfl

/-- The li items the review loop ranges over: the items of a present,
truthy reviews block, and nothing otherwise. -/
def reviewItems (soup : Node) : List Node :=
  match selectReviewsBlock soup with
  | none => []
  | some block => if pyFalsy (some block) then [] else findAllLi block

theorem reviewLoop_ok_eq (soup : Node) (n : Nat) : ∀ lis acc items,
    reviewLoop soup n lis acc = Except.ok items →
    items = acc ++ (lis.take (n - acc.length)).map (mkReviewItem soup) := by
  intro lis
  induction lis with
  | nil =>
    intro acc items h
    simp [reviewLoop] at h
    simp [← h]
  | cons li rest ih =>
    intro acc items h
    by_cases hn : n ≤ acc.length
    · rw [reviewLoop, if_pos hn] at h
      have hz : n - acc.length = 0 := by omega
      simp at h
      simp [hz, ← h]
    · rw [reviewLoop, if_neg hn] at h
      cases hd : dateElementPage soup with
      | error e => rw [hd] at h; exact absurd h (by simp)
      | ok d =>
        rw [hd] at h
        have hitem : ({ reviewer_name := sanitize_element_text (selectReviewerName li) []
                        reviewer_location := sanitize_element_text (selectReviewerLoc li) []
                        review_date := sanitize_element_text (selectDateSpan d) [] } : ReviewData)
            = mkReviewItem soup li := by
          unfold dateElementPage at hd
          unfold mkReviewItem pageDateSpan
          cases hg : (pageLiDivDiv soup)[1]? with
          | some d2 => rw [hg] at hd; simp at hd; rw [hd]
          | none => rw [hg] at hd; exact absurd hd (by simp)
        have h2 := ih _ _ h
        rw [h2, hitem]
        have harith : n - acc.length = (n - (acc.length + 1)) + 1 := by omega
        simp only [List.length_append, List.length_cons, List.length_nil, Nat.zero_add]
        rw [harith, List.take_succ_cons]
        simp

/-- C5: a successful detail extraction returns at most number_of_reviews
records, and they are exactly the first number_of_reviews li items of the
reviews list, in document order. -/
theorem claim_C5 : ∀ soup n items website,
    extract_object_reviews soup n = Except.ok (items, website) →
    items.length ≤ n ∧ items = ((reviewItems soup).take n).map (mkReviewItem soup) := by
  intro soup n items website h
  unfold extract_object_reviews at h
  cases hw : websiteStep soup with
  | error e => rw [hw] at h; exact absurd h (by simp [Except.bind])
  | ok website2 =>
    rw [hw] at h
    simp only [Except.bind] at h
    unfold reviewsPart at h
    have hitems : items = ((reviewItems soup).take n).map (mkReviewItem soup) := by
      cases hb : selectReviewsBlock soup with
      | none =>
        rw [hb] at h
        simp at h
        simp [reviewItems, hb, h.1]
      | some block =>
        rw [hb] at h
        cases hf : pyFalsy (some block) with
        | true =>
          simp only [hf, if_true] at h
          simp at h
          simp [reviewItems, hb, hf, h.1]
        | false =>
          simp only [hf, Bool.false_eq_true, if_false] at h
          cases hr : reviewLoop soup n (findAllLi block) [] with
          | error e => rw [hr] at h; exact absurd h (by simp [Except.map])
          | ok its =>
            rw [hr] at h
            simp [Except.map] at h
            have := reviewLoop_ok_eq soup n (findAllLi block) [] its hr
            simp at this
            rw [h.1] at this
            simpa [reviewItems, hb, hf, List.map_take] using this
    refine ⟨?_, hitems⟩
    rw [hitems]
    simp [List.length_take, List.length_map]

theorem claim_C5_witness :
    ([emptyReview, emptyReview, emptyReview] : List ReviewData).length ≤ 3 ∧
    [emptyReview, emptyReview, emptyReview]
      = ((reviewItems detailPage8).take 3).map (mkReviewItem detailPage8) :=
  claim_C5 detailPage8 3 [emptyReview, emptyReview, emptyReview] none rfl

theorem fetchBound (env : Env) (k : Nat) (hk : env.max_pages = some k) :
    ∀ fuel page objs fetched diags,
      (get_objects_list env fuel page objs fetched diags).fetchedOffsets.length
        ≤ fetched.length + (k - page) := by
  intro fuel
  induction fuel with
  | zero => intro page objs fetched diags; simp [get_objects_list]
  | succ f ih =>
    intro page objs fetched diags
    cases hl : pageLimitHit env.max_pages (page + 1) with
    | true => simp [get_objects_list, hl]
    | false =>
      have hpk : page < k := by
        unfold pageLimitHit at hl
        rw [hk] at hl
        simp at hl
        omega
      cases ht : isTerminal (env.pages (page * 10)) with
      | true =>
        simp [get_objects_list, hl, ht]
        omega
      | false =>
        cases hp : processCards env (selectCards (env.pages (page * 10))) objs diags with
        | error e =>
          simp [get_objects_list, hl, ht, hp]
          omega
        | ok pr =>
          have h2 := ih (page + 1) pr.1 (fetched ++ [page * 10]) pr.2
          simp only [List.length_append, List.length_cons, List.length_nil] at h2
          simp [get_objects_list, hl, ht, hp]
          omega

/-- C6: with a bound max_pages = k, the loop fetches at most k listing
pages — the counter starts at 0, is incremented before the bound check,
and the check precedes the fetch. -/
theorem claim_C6 : ∀ env k fuel, env.max_pages = some k →
    (get_objects_list env fuel 0 [] [] []).fetchedOffsets.length ≤ k := by
  intro env k fuel hk
  simpa using fetchBound env k hk fuel 0 [] [] []

theorem claim_C6_witness :
    (get_objects_list envEmpty 10 0 [] [] []).fetchedOffsets.length ≤ 5 :=
  claim_C6 envEmpty 5 10 rfl

theorem terminalLast (env : Env) : ∀ fuel page objs fetched diags,
    (∀ x ∈ fetched, isTerminal (env.pages x) = false) →
    ∀ i x,
      i + 1 < (get_objects_list env fuel page objs fetched diags).fetchedOffsets.length →
      (get_objects_list env fuel page objs fetched diags).fetchedOffsets[i]? = some x →
      isTerminal (env.pages x) = false := by
  intro fuel
  induction fuel with
  | zero =>
    intro page objs fetched diags hpre i x hlen hget
    exact hpre x (List.getElem?_mem (by simpa [get_objects_list] using hget))
  | succ f ih =>
    intro page objs fetched diags hpre i x hlen hget
    cases hl : pageLimitHit env.max_pages (page + 1) with
    | true =>
      rw [get_objects_list] at hget
      rw [if_pos hl] at hget
      exact hpre x (List.getElem?_mem hget)
    | false =>
      cases ht : isTerminal (env.pages (page * 10)) with
      | true =>
        rw [get_objects_list, if_neg (by simp [hl]), if_pos ht] at hget hlen
        simp only [List.length_append, List.length_cons, List.length_nil] at hlen
        have hi : i < fetched.length := by simpa using hlen
        rw [List.getElem?_append, if_pos hi] at hget
        exact hpre x (List.getElem?_mem hget)
      | false =>
        cases hp : processCards env (selectCards (env.pages (page * 10))) objs diags with
        | error e =>
          rw [get_objects_list, if_neg (by simp [hl]), if_neg (by simp [ht]), hp] at hget hlen
          simp only [List.length_append, List.length_cons, List.length_nil] at hlen
          have hi : i < fetched.length := by simpa using hlen
          rw [List.getElem?_append, if_pos hi] at hget
          exact hpre x (List.getElem?_mem hget)
        | ok pr =>
          rw [get_objects_list, if_neg (by simp [hl]), if_neg (by simp [ht]), hp] at hget hlen
          refine ih (page + 1) pr.1 (fetched ++ [page * 10]) pr.2 ?_ i x hlen hget
          intro y hy
          rcases List.mem_append.mp hy with hy1 | hy2
          · exact hpre y hy1
          · have : y = page * 10 := by simpa using hy2
            rw [this]
            exact ht

/-- C7: a page is terminal exactly when some h3 descendant's string is
exactly the sentinel (so a near-miss such as the sentinel plus a trailing
character is not terminal), and a terminal fetched page is always the
last page fetched — no page i+1 fetch follows a terminal page i. -/
theorem claim_C7 :
    (∀ soup, isTerminal soup = true ↔
      ∃ q ∈ properElems soup, tagOf q.1 = some "h3" ∧ nodeString q.1 = some error_text) ∧
    isTerminal nearMissPage = false ∧
    (∀ env fuel i x,
      i + 1 < (get_objects_list env fuel 0 [] [] []).fetchedOffsets.length →
      (get_objects_list env fuel 0 [] [] []).fetchedOffsets[i]? = some x →
      isTerminal (env.pages x) = false) := by
  refine ⟨?_, rfl, ?_⟩
  · intro soup
    unfold isTerminal errorTags
    constructor
    · intro h
      have hne : (properElems soup).filter
          (fun q => tagOf q.1 == some "h3" && nodeString q.1 == some error_text) ≠ [] := by
        intro hemp
        rw [hemp] at h
        simp at h
      obtain ⟨q, hq⟩ := List.exists_mem_of_ne_nil _ hne
      have hmf := List.mem_filter.mp hq
      have hprop := hmf.2
      simp only [Bool.and_eq_true, beq_iff_eq] at hprop
      exact ⟨q, hmf.1, hprop.1, hprop.2⟩
    · rintro ⟨q, hmem, h1, h2⟩
      have hq : q ∈ (properElems soup).filter
          (fun q => tagOf q.1 == some "h3" && nodeString q.1 == some error_text) :=
        List.mem_filter.mpr ⟨hmem, by simp [h1, h2]⟩
      have hne := List.ne_nil_of_mem hq
      simpa [List.isEmpty_iff] using hne
  · exact fun env fuel i x h1 h2 =>
      terminalLast env fuel 0 [] [] [] (by simp) i x h1 h2

theorem claim_C7_witness : isTerminal (envEmpty.pages 0) = false :=
  claim_C7.2.2 envEmpty 10 0 0 (by decide) (by decide)

/-- C1 counterexample: the first listing page yields zero cards and is not
terminal, yet with the default bound of 5 the loop goes on to fetch four
further pages — a zero-card page does not terminate the loop. -/
theorem claim_C1_cex :
    selectCards (envEmpty.pages 0) = [] ∧
    isTerminal (envEmpty.pages 0) = false ∧
    (get_objects_list envEmpty 10 0 [] [] []).fetchedOffsets = [0, 10, 20, 30, 40] :=
  ⟨rfl, rfl, rfl⟩

theorem fetchedExt (env : Env) : ∀ fuel page objs fetched diags,
    ∃ ext, (get_objects_list env fuel page objs fetched diags).fetchedOffsets
      = fetched ++ ext := by
  intro fuel
  induction fuel with
  | zero =>
    intro page objs fetched diags
    exact ⟨[], by simp [get_objects_list]⟩
  | succ f ih =>
    intro page objs fetched diags
    cases hl : pageLimitHit env.max_pages (page + 1) with
    | true => exact ⟨[], by simp [get_objects_list, hl]⟩
    | false =>
      cases ht : isTerminal (env.pages (page * 10)) with
      | true => exact ⟨[page * 10], by simp [get_objects_list, hl, ht]⟩
      | false =>
        cases hp : processCards env (selectCards (env.pages (page * 10))) objs diags with
        | error e => exact ⟨[page * 10], by simp [get_objects_list, hl, ht, hp]⟩
        | ok pr =>
          obtain ⟨ext, hext⟩ := ih (page + 1) pr.1 (fetched ++ [page * 10]) pr.2
          refine ⟨[page * 10] ++ ext, ?_⟩
          simp [get_objects_list, hl, ht, hp, hext]

/-- C1 amended: a fetched page that is not terminal and yields zero cards
does not stop the loop — with fuel and the page bound allowing, the next
listing page is fetched as well; the loop stops only on the sentinel or
the page bound. -/
theorem claim_C1_amended : ∀ env fuel page objs fetched diags,
    (∀ k, env.max_pages = some k → page + 2 ≤ k) →
    isTerminal (env.pages (page * 10)) = false →
    selectCards (env.pages (page * 10)) = [] →
    ∃ rest, (get_objects_list env (fuel + 1 + 1) page objs fetched diags).fetchedOffsets
      = fetched ++ [page * 10, (page + 1) * 10] ++ rest := by
  intro env fuel page objs fetched diags hk ht hc
  have h1 : pageLimitHit env.max_pages (page + 1) = false := by
    unfold pageLimitHit
    cases hmp : env.max_pages with
    | none => rfl
    | some k =>
      have := hk k hmp
      simp
      omega
  have h2 : pageLimitHit env.max_pages (page + 1 + 1) = false := by
    unfold pageLimitHit
    cases hmp : env.max_pages with
    | none => rfl
    | some k =>
      have := hk k hmp
      simp
      omega
  have hproc : processCards env (selectCards (env.pages (page * 10))) objs diags
      = Except.ok (objs, diags) := by
    rw [hc]
    rfl
  cases ht2 : isTerminal (env.pages ((page + 1) * 10)) with
  | true =>
    refine ⟨[], ?_⟩
    simp [get_objects_list, h1, h2, ht, ht2, hproc]
  | false =>
    cases hp2 : processCards env (selectCards (env.pages ((page + 1) * 10))) objs diags with
    | error e =>
      refine ⟨[], ?_⟩
      simp [get_objects_list, h1, h2, ht, ht2, hproc, hp2]
    | ok pr =>
      obtain ⟨ext, hext⟩ :=
        fetchedExt env fuel (page + 1 + 1) pr.1 (fetched ++ [page * 10, (page + 1) * 10]) pr.2
      refine ⟨ext, ?_⟩
      simp [get_objects_list, h1, h2, ht, ht2, hproc, hp2, hext]

theorem claim_C1_amended_witness :
    ∃ rest, (get_objects_list envEmpty 10 0 [] [] []).fetchedOffsets
      = [] ++ [0 * 10, (0 + 1) * 10] ++ rest :=
  claim_C1_amended envEmpty 8 0 [] [] []
    (by intro k hk; simp [envEmpty] at hk; omega) rfl rfl

/-- A bare card with no name link. -/
def cardBare : Node := Node.elem "div" [] []

/-- C8: a card whose name link is absent still yields a record, with
absent name and absent yelp_url; the raw card goes to the diagnostic side
channel, not the main result, and the loop simply moves on to the
remaining cards. -/
theorem claim_C8 : ∀ env card cards objs diags,
    selectNameElement card = none →
    processCards env (card :: cards) objs diags
      = processCards env cards (objs ++ [mkSummary card]) (diags ++ [card]) ∧
    (mkSummary card).name = none ∧ (mkSummary card).yelp_url = none := by
  intro env card cards objs diags h
  have hurl : (mkSummary card).yelp_url = none := by
    simp [mkSummary, h, pyFalsy]
  have hname : (mkSummary card).name = none := by
    simp [mkSummary, h, sanitize_element_text, pyFalsy]
  refine ⟨?_, hname, hurl⟩
  have hdata : get_object_data env card = Except.ok (mkSummary card, some card) := by
    unfold get_object_data
    rw [hurl]
    simp [pyTruthyStr, h, pyFalsy]
  rw [processCards, hdata]
  simp

theorem claim_C8_witness :
    processCards envEmpty [cardBare] [] []
      = processCards envEmpty [] ([] ++ [mkSummary cardBare]) ([] ++ [cardBare]) ∧
    (mkSummary cardBare).name = none ∧ (mkSummary cardBare).yelp_url = none :=
  claim_C8 envEmpty cardBare [] [] [] rfl

/-- C9: a record emitted with absent yelp_url keeps an empty reviews list
and an unset website key, and its construction never touches the detail
fetcher — the summary record is passed through unmodified. -/
theorem claim_C9 : ∀ env card r d,
    get_object_data env card = Except.ok (r, d) →
    r.yelp_url = none →
    r.reviews = [] ∧ r.website = none ∧
      ∀ details2, get_object_data { env with details := details2 } card = Except.ok (r, d) := by
  intro env card r d hok hurl
  unfold get_object_data at hok
  cases hb : pyTruthyStr (mkSummary card).yelp_url with
  | true =>
    rw [hb] at hok
    simp only [if_true] at hok
    cases hr : get_object_reviews (env.details ((mkSummary card).yelp_url.getD ""))
        env.number_of_reviews with
    | error e =>
      rw [hr] at hok
      exact absurd hok (by simp [Except.map])
    | ok rs =>
      rw [hr] at hok
      simp [Except.map] at hok
      have : r.yelp_url = (mkSummary card).yelp_url := by
        rw [← hok.1]
      rw [this] at hurl
      rw [hurl] at hb
      simp [pyTruthyStr] at hb
  | false =>
    rw [hb] at hok
    simp only [Bool.false_eq_true, if_false] at hok
    simp at hok
    obtain ⟨hr, hd⟩ := hok
    subst hr
    refine ⟨rfl, rfl, ?_⟩
    intro details2
    unfold get_object_data
    rw [hb]
    simp [hd]

theorem claim_C9_witness :
    (mkSummary cardBare).reviews = [] ∧ (mkSummary cardBare).website = none :=
  ⟨(claim_C9 envEmpty cardBare (mkSummary cardBare) (some cardBare) rfl rfl).1,
   (claim_C9 envEmpty cardBare (mkSummary cardBare) (some cardBare) rfl rfl).2.1⟩

theorem claim_C4_amended_witness :
    sanitizeText (sanitizeText (some " (42) ") ["(", ")"]) ["(", ")"]
      = sanitizeText (some " (42) ") ["(", ")"] :=
  (claim_C4_amended (some " (42) ") ["(", ")"]).mpr
    (Or.inr ⟨"42", by decide, by decide, by decide⟩)

theorem claim_C2_amended_witness :
    (extract_object_reviews detailPage8 3).isOk
      = (websiteSafe detailPage8 && reviewsSafe detailPage8 3) :=
  claim_C2_amended detailPage8 3

theorem claim_C10_witness :
    (sanitize_element_text (some (Node.text "x")) [] = none ↔
      pyFalsy (some (Node.text "x")) = true) :=
  claim_C10.1 (some (Node.text "x")) []
